import Mathlib

/-!
Verification of the core of a GitHub search crawler (`scraper.py`): URL
construction, the fetch/retry state machine, proxy selection, search-result
link extraction, and repository-detail extraction.  Each definition is a
shallow embedding of the corresponding Python function; network requests and
random draws are modeled as explicit inputs (a fetch oracle, an event stream,
a jitter stream, a chosen index), and the parsed BeautifulSoup document is
modeled as a tree of nodes.
-/

namespace GitPars

/-! ### Character and string primitives (models of the Python built-ins) -/

/-- Model of Python `str.startswith` (also the CSS attribute operator `^=`). -/
def pyStartsWith (s pat : String) : Bool := pat.data.isPrefixOf s.data

/-- Containment of a character sequence in another (Python `in` on strings,
also the CSS attribute operator `*=`). -/
def hasSubstr (l sub : List Char) : Bool :=
  sub.isPrefixOf l ||
    match l with
    | [] => false
    | _ :: t => hasSubstr t sub

/-- String-level substring containment. -/
def hasSubstrStr (s sub : String) : Bool := hasSubstr s.data sub.data

/-- Strip characters satisfying `p` from both ends of a character list. -/
def stripList (p : Char → Bool) (cs : List Char) : List Char :=
  ((cs.dropWhile p).reverse.dropWhile p).reverse

/-- Split at the first occurrence of `pat`, returning the pieces before and
after it, or nothing when `pat` does not occur. -/
def splitFirstOn (pat : List Char) : List Char → Option (List Char × List Char)
  | [] => none
  | c :: rest =>
    if pat.isPrefixOf (c :: rest) then some ([], (c :: rest).drop pat.length)
    else
      match splitFirstOn pat rest with
      | none => none
      | some pr => some (c :: pr.1, pr.2)

/-- Whitespace tokenization (Python `str.split()` with no argument): runs of
non-whitespace characters, empties dropped.  `cur` holds the reversed current
token. -/
def wsTokens (cur : List Char) : List Char → List (List Char)
  | [] => if cur = [] then [] else [cur.reverse]
  | c :: rest =>
    if c.isWhitespace then
      if cur = [] then wsTokens [] rest else cur.reverse :: wsTokens [] rest
    else wsTokens (c :: cur) rest

/-- Model of Python `str.lower()` (ASCII). -/
def pyLower (s : String) : String := ⟨s.data.map Char.toLower⟩

/-- Model of Python `str.strip()` (ASCII whitespace). -/
def pyStrip (s : String) : String := ⟨stripList (fun c => c.isWhitespace) s.data⟩

/-- Model of Python `str.strip("%")`. -/
def stripPercent (s : String) : String := ⟨stripList (fun c => c = '%') s.data⟩

/-- Word characters for the regex boundary (ASCII fragment of the word class). -/
def isWordChar (c : Char) : Bool := c.isAlphanum || c = '_'

/-- Case-insensitive match of the pattern `w` against an initial segment of
`cs`, returning the remainder after the match. -/
def matchPrefixCI : List Char → List Char → Option (List Char)
  | [], cs => some cs
  | _ :: _, [] => none
  | w :: ws, c :: cs => if c.toLower = w.toLower then matchPrefixCI ws cs else none

/-- Whether `w` matches at the head of `cs` with a word boundary after it. -/
def boundaryMatch (w cs : List Char) : Bool :=
  match matchPrefixCI w cs with
  | none => false
  | some [] => true
  | some (a :: _) => !(isWordChar a)

/-- Model of a bounded-word case-insensitive regex search: scans positions
tracking whether the previous character is a word character. -/
def searchWordCI (w : List Char) : Bool → List Char → Bool
  | _, [] => false
  | prev, c :: rest =>
    (!prev && boundaryMatch w (c :: rest)) || searchWordCI w (isWordChar c) rest

/-- The `string=` filter of `_get_repo_details` for the Languages heading:
the compiled case-insensitive word-bounded pattern applied by search. -/
def languagesRegexMatches (s : String) : Bool := searchWordCI "languages".data false s.data

/-- Numeric value of a digit list (most significant first). -/
def digitsToNat (ds : List Char) : Nat := ds.foldl (fun a c => 10 * a + (c.toNat - 48)) 0

/-- Exact rational value of a signed decimal literal with integer part `ip`,
fraction `fp` and decimal exponent `ex`: the mantissa over the power of ten,
the exponent folded into numerator or denominator. -/
def decValue (neg : Bool) (ip fp : List Char) (ex : Int) : ℚ :=
  let mant : Nat := digitsToNat ip * 10 ^ fp.length + digitsToNat fp
  let num : Int := if neg then -(mant : Int) else (mant : Int)
  if 0 ≤ ex then mkRat (num * ((10 ^ ex.toNat : Nat) : Int)) (10 ^ fp.length)
  else mkRat num (10 ^ fp.length * 10 ^ (-ex).toNat)

/-- Mantissa with optional exponent suffix, the shared tail of the float
grammar: `rest` must be empty or a well-formed exponent. -/
def pyFloatExp (neg : Bool) (ip fp rest : List Char) : Option ℚ :=
  match rest with
  | [] => some (decValue neg ip fp 0)
  | e :: t =>
    if e = 'e' || e = 'E' then
      let st : Bool × List Char :=
        match t with
        | [] => (false, t)
        | c :: t1 => if c = '+' then (false, t1) else if c = '-' then (true, t1) else (false, t)
      let ed := st.2.takeWhile (fun c => c.isDigit)
      if ed = [] then none
      else
        match st.2.dropWhile (fun c => c.isDigit) with
        | [] =>
          some (decValue neg ip fp
            (if st.1 then -(digitsToNat ed : Int) else (digitsToNat ed : Int)))
        | _ :: _ => none
    else none

/-- Model of Python `float(s)` for finite decimal literals: optional sign,
digits with optional fraction and exponent, surrounding whitespace allowed;
the value is the exact decimal rational.  Non-finite literals and underscore
digit separators are outside the model, and on them the model conservatively
reports a parse failure. -/
def pyFloat (s : String) : Option ℚ :=
  let cs := stripList (fun c => c.isWhitespace) s.data
  let sc : Bool × List Char :=
    match cs with
    | [] => (false, cs)
    | c :: t => if c = '+' then (false, t) else if c = '-' then (true, t) else (false, cs)
  let ip := sc.2.takeWhile (fun c => c.isDigit)
  match sc.2.dropWhile (fun c => c.isDigit) with
  | [] => if ip = [] then none else pyFloatExp sc.1 ip [] []
  | c :: t =>
    if c = '.' then
      if ip = [] && t.takeWhile (fun c => c.isDigit) = [] then none
      else pyFloatExp sc.1 ip (t.takeWhile (fun c => c.isDigit)) (t.dropWhile (fun c => c.isDigit))
    else if ip = [] then none
    else pyFloatExp sc.1 ip [] (c :: t)

/-! ### Markup model (the parsed BeautifulSoup document tree) -/

/-- Parsed markup node: an element with tag, attributes and children, or text. -/
inductive Node where
  | elem (tag : String) (attrs : List (String × String)) (children : List Node)
  | text (s : String)
deriving Repr, Inhabited

mutual
/-- Decidable equality of nodes (manual: the derive handler does not cover
nested inductives). -/
def nodeDecEq : (a b : Node) → Decidable (a = b)
  | .elem t1 a1 c1, .elem t2 a2 c2 =>
    match decEq t1 t2, decEq a1 a2, nodesDecEq c1 c2 with
    | isTrue h1, isTrue h2, isTrue h3 => isTrue (by rw [h1, h2, h3])
    | isFalse h1, _, _ => isFalse (by intro h; injection h; contradiction)
    | _, isFalse h2, _ => isFalse (by intro h; injection h; contradiction)
    | _, _, isFalse h3 => isFalse (by intro h; injection h; contradiction)
  | .elem _ _ _, .text _ => isFalse (by intro h; exact Node.noConfusion h)
  | .text _, .elem _ _ _ => isFalse (by intro h; exact Node.noConfusion h)
  | .text s, .text t =>
    match decEq s t with
    | isTrue h => isTrue (by rw [h])
    | isFalse h => isFalse (by intro hh; injection hh; contradiction)
/-- Decidable equality of node lists. -/
def nodesDecEq : (a b : List Node) → Decidable (a = b)
  | [], [] => isTrue rfl
  | [], _ :: _ => isFalse (by intro h; exact List.noConfusion h)
  | _ :: _, [] => isFalse (by intro h; exact List.noConfusion h)
  | x :: xs, y :: ys =>
    match nodeDecEq x y, nodesDecEq xs ys with
    | isTrue h1, isTrue h2 => isTrue (by rw [h1, h2])
    | isFalse h1, _ => isFalse (by intro h; injection h; contradiction)
    | _, isFalse h2 => isFalse (by intro h; injection h; contradiction)
end

instance : DecidableEq Node := nodeDecEq

/-- A parsed document is a forest of top-level nodes; the empty forest models
the empty markup string (both are falsy in the Python code). -/
abbrev Html := List Node

/-- First value of an attribute, if present. -/
def getAttr : List (String × String) → String → Option String
  | [], _ => none
  | (a, v) :: rest, k => if a = k then some v else getAttr rest k

/-- Attributes of a node (text nodes have none). -/
def nodeAttrs : Node → List (String × String)
  | .elem _ a _ => a
  | .text _ => []

/-- Whether the node is an element with the given tag. -/
def isElemTag : Node → String → Bool
  | .elem t _ _, tag => t = tag
  | .text _, _ => false

mutual
/-- Concatenated text of a node (BeautifulSoup `.text`). -/
def nodeText : Node → String
  | .text s => s
  | .elem _ _ cs => nodesText cs
/-- Concatenated text of a list of nodes. -/
def nodesText : List Node → String
  | [] => ""
  | c :: cs => nodeText c ++ nodesText cs
end

/-- Model of BeautifulSoup `Tag.string`: the unique string child, following
single-child chains; `none` when the node has zero or several children. -/
def nodeString : Node → Option String
  | .text s => some s
  | .elem _ _ [c] => nodeString c
  | .elem _ _ _ => none

mutual
/-- Pre-order listing of a node with its path (document order). -/
def preorderNode (p : List Nat) : Node → List (List Nat × Node)
  | .text s => [(p, .text s)]
  | .elem t a cs => (p, .elem t a cs) :: preorderKids p 0 cs
/-- Pre-order listing of a child list starting at index `i`. -/
def preorderKids (p : List Nat) (i : Nat) : List Node → List (List Nat × Node)
  | [] => []
  | c :: rest => preorderNode (p ++ [i]) c ++ preorderKids p (i + 1) rest
end

/-- All nodes of a document in document order, with their paths. -/
def docOrder (doc : Html) : List (List Nat × Node) := preorderKids [] 0 doc

/-- Entries strictly after the entry at path `p` (the `find_next` traversal
continues in document order past the given node, descendants included). -/
def afterPath (entries : List (List Nat × Node)) (p : List Nat) : List (List Nat × Node) :=
  match entries.dropWhile (fun e => !(e.1 == p)) with
  | [] => []
  | _ :: rest => rest

/-- Model of `tag.find_next(tagName)` over the whole document. -/
def findNextTag (doc : Html) (p : List Nat) (tag : String) : Option (List Nat × Node) :=
  (afterPath (docOrder doc) p).find? (fun e => isElemTag e.2 tag)

/-- Whether `q` lies strictly under `p` (descendant path). -/
def strictUnder (p q : List Nat) : Bool :=
  p.isPrefixOf q && decide (p.length < q.length)

/-- Entries for the strict descendants of the node at path `p`. -/
def underPath (entries : List (List Nat × Node)) (p : List Nat) : List (List Nat × Node) :=
  entries.filter (fun e => strictUnder p e.1)

/-- Class attribute split into tokens (BeautifulSoup multi-valued class). -/
def classTokens (n : Node) : List String :=
  match getAttr (nodeAttrs n) "class" with
  | none => []
  | some v => (wsTokens [] v.data).map (fun l => (⟨l⟩ : String))

/-- Token-level class matching as done by `find` and `find_all` with a
class attribute filter. -/
def hasClassToken (n : Node) (tok : String) : Bool := (classTokens n).contains tok

/-- First element in document order with the tag and exact attribute value
(the `select_one` calls of the owner extraction). -/
def selectOneAttr (doc : Html) (tag attr val : String) : Option Node :=
  ((docOrder doc).find? (fun e =>
    isElemTag e.2 tag && (getAttr (nodeAttrs e.2) attr == some val))).map (fun e => e.2)

/-- Owner element lookup: the author span, then the user hover-card anchor,
then the organization hover-card anchor; first match wins. -/
def ownerElement (doc : Html) : Option Node :=
  (selectOneAttr doc "span" "itemprop" "author").orElse (fun _ =>
    (selectOneAttr doc "a" "data-hovercard-type" "user").orElse (fun _ =>
      selectOneAttr doc "a" "data-hovercard-type" "organization"))

/-- Container test for the results-list div selector. -/
def isResultsContainer (n : Node) : Bool :=
  isElemTag n "div" && (getAttr (nodeAttrs n) "data-testid" == some "results-list")

/-- Anchor test for the result-link selector: CSS attribute-value prefix match
on the raw class string. -/
def isResultLink (n : Node) : Bool :=
  isElemTag n "a" &&
    (match getAttr (nodeAttrs n) "class" with
     | some v => pyStartsWith v "prc-Link-Link"
     | none => false)

/-- Model of the shared results-list selector: anchors in document order
having an ancestor results container. -/
def selectResultsListLinks (doc : Html) : List Node :=
  ((docOrder doc).filter (fun e =>
    isResultLink e.2 &&
      (docOrder doc).any (fun d => isResultsContainer d.2 && strictUnder d.1 e.1))).map
    (fun e => e.2)

/-! ### URL construction (`urllib.parse` as used by the crawler) -/

/-- Scheme of a URL of the form `scheme://netloc/...`. -/
def urlScheme (u : String) : String :=
  match splitFirstOn "://".data u.data with
  | some pr => ⟨pr.1⟩
  | none => ""

/-- Network location of a URL of the form `scheme://netloc/...`: the piece
after the scheme separator up to the first slash. -/
def urlNetloc (u : String) : String :=
  match splitFirstOn "://".data u.data with
  | some pr => ⟨pr.2.takeWhile (fun c => !(c == '/'))⟩
  | none => ""

/-- UTF-8 bytes of a character (explicit encoder, kernel-reducible). -/
def utf8Bytes (c : Char) : List Nat :=
  let n := c.toNat
  if n < 128 then [n]
  else if n < 2048 then [192 + n / 64, 128 + n % 64]
  else if n < 65536 then [224 + n / 4096, 128 + (n / 64) % 64, 128 + n % 64]
  else [240 + n / 262144, 128 + (n / 4096) % 64, 128 + (n / 64) % 64, 128 + n % 64]

/-- Uppercase hexadecimal digit. -/
def hexDigit (n : Nat) : Char :=
  if n < 10 then Char.ofNat (48 + n) else Char.ofNat (55 + n)

/-- Bytes left unescaped by the plus-quoting encoder: ASCII alphanumerics and
underscore, dot, hyphen, tilde. -/
def quoteSafe (n : Nat) : Bool :=
  (48 ≤ n && n ≤ 57) || (65 ≤ n && n ≤ 90) || (97 ≤ n && n ≤ 122) ||
    n == 95 || n == 46 || n == 45 || n == 126

/-- Model of the plus-quoting percent encoder used by `urlencode`: safe bytes
kept, space to plus, every other UTF-8 byte percent-encoded. -/
def quotePlus (s : String) : String :=
  ⟨(s.data.flatMap utf8Bytes).flatMap (fun n =>
    if quoteSafe n then [Char.ofNat n]
    else if n == 32 then ['+']
    else ['%', hexDigit (n / 16), hexDigit (n % 16)])⟩

/-- Model of `urlencode` over an association list. -/
def urlencode (params : List (String × String)) : String :=
  String.intercalate "&" (params.map (fun kv => quotePlus kv.1 ++ "=" ++ quotePlus kv.2))

/-- Model of `urlunparse` for empty params and fragment components. -/
def urlunparse (scheme netloc path query : String) : String :=
  let url := path
  let url :=
    if (!(netloc == "")) || ((!(url == "")) && !(pyStartsWith url "//")) then
      "//" ++ netloc ++ (if (!(url == "")) && !(pyStartsWith url "/") then "/" ++ url else url)
    else url
  let url := if !(scheme == "") then scheme ++ ":" ++ url else url
  if !(query == "") then url ++ "?" ++ query else url

/-- Model of `GitHubCrawler._build_url`: leading slashes stripped from the
path, the query built only when parameters are present. -/
def buildUrl (baseUrl path : String) (queryParams : List (String × String)) : String :=
  let query := if queryParams == [] then "" else urlencode queryParams
  urlunparse (urlScheme baseUrl) (urlNetloc baseUrl) ⟨path.data.dropWhile (fun c => c = '/')⟩
    query

/-- Model of `urljoin` for the href shapes met by the crawler: absolute URLs,
scheme-relative, root-relative, and bare relative references against a base
URL without a path component.  Full RFC 3986 resolution is outside the model. -/
def urljoin (base href : String) : String :=
  if hasSubstrStr href "://" then href
  else if pyStartsWith href "//" then urlScheme base ++ ":" ++ href
  else if pyStartsWith href "/" then urlScheme base ++ "://" ++ urlNetloc base ++ href
  else urlScheme base ++ "://" ++ urlNetloc base ++ "/" ++ href

/-! ### Result-list extraction (`GitHubCrawler._parse_search_results`) -/

/-- Model of `_parse_search_results`: for each selected anchor, a present and
non-empty href (empty strings are falsy) is resolved against the base URL. -/
def parseSearchResults (baseUrl : String) (doc : Html) : List String :=
  (selectResultsListLinks doc).filterMap (fun n =>
    match getAttr (nodeAttrs n) "href" with
    | some h => if h = "" then none else some (urljoin baseUrl h)
    | none => none)

/-! ### Repository detail extraction (`GitHubCrawler._get_repo_details`) -/

/-- Repository record: the url, owner and language-stats dictionary. -/
structure RepoResult where
  url : String
  owner : String
  languageStats : List (String × ℚ)
deriving Repr, DecidableEq

/-- Python dict insertion: replace in place when the key exists, else append. -/
def dictInsert (m : List (String × ℚ)) (k : String) (v : ℚ) : List (String × ℚ) :=
  match m with
  | [] => [(k, v)]
  | (a, b) :: rest => if a = k then (a, v) :: rest else (a, b) :: dictInsert rest k v

/-- Model of the Languages-heading lookup: first h2 in document order whose
string matches the case-insensitive word-bounded Languages pattern. -/
def findLangBox (doc : Html) : Option (List Nat × Node) :=
  (docOrder doc).find? (fun e =>
    isElemTag e.2 "h2" &&
      (match nodeString e.2 with
       | some s => languagesRegexMatches s
       | none => false))

/-- Tier-1 list items: all li descendants with the d-inline class token of the
first ul following the Languages heading. -/
def tier1Lis (doc : Html) : List (List Nat × Node) :=
  match findLangBox doc with
  | none => []
  | some pe =>
    match findNextTag doc pe.1 "ul" with
    | none => []
    | some ulE =>
      (underPath (docOrder doc) ulE.1).filter (fun e =>
        isElemTag e.2 "li" && hasClassToken e.2 "d-inline")

/-- Tier-2 list items: li elements whose raw class attribute contains the
substring `language` (CSS substring operator). -/
def tier2Lis (doc : Html) : List (List Nat × Node) :=
  (docOrder doc).filter (fun e =>
    isElemTag e.2 "li" &&
      (match getAttr (nodeAttrs e.2) "class" with
       | some v => hasSubstrStr v "language"
       | none => false))

/-- Name/percentage pair of one list item: the first bold-styled descendant
span (language name, stripped) and the next span in document order after it
(percentage text, stripped of percent signs).  Absent when either is missing. -/
def langPairOfLi (doc : Html) (li : List Nat × Node) : Option (String × String) :=
  match (underPath (docOrder doc) li.1).find? (fun e =>
    isElemTag e.2 "span" && hasClassToken e.2 "text-bold") with
  | none => none
  | some langE =>
    match findNextTag doc langE.1 "span" with
    | none => none
    | some pctE => some (pyStrip (nodeText langE.2), stripPercent (nodeText pctE.2))

/-- One iteration of the language-statistics loop: extract the pair of the
list item, parse the percentage, insert on success; a missing pair or a parse
failure leaves the dictionary unchanged (the swallowed parse error). -/
def langStep (doc : Html) (li : List Nat × Node) (acc : List (String × ℚ)) :
    List (String × ℚ) :=
  match langPairOfLi doc li with
  | none => acc
  | some np =>
    match pyFloat np.2 with
    | none => acc
    | some v => dictInsert acc np.1 v

/-- The language-statistics accumulation loop shared by both tiers. -/
def langLoop (doc : Html) : List (List Nat × Node) → List (String × ℚ) → List (String × ℚ)
  | [], acc => acc
  | li :: rest, acc => langLoop doc rest (langStep doc li acc)

/-- Owner string of a repository page: stripped text of the owner element,
empty when no selector matches. -/
def ownerOf (doc : Html) : String :=
  match ownerElement doc with
  | some n => pyStrip (nodeText n)
  | none => ""

/-- Language statistics of a repository page: Tier 1, falling back to Tier 2
only when Tier 1 yields nothing. -/
def statsOf (doc : Html) : List (String × ℚ) :=
  match langLoop doc (tier1Lis doc) [] with
  | [] => langLoop doc (tier2Lis doc) []
  | s => s

/-- Model of `_get_repo_details`: the page is supplied by the fetch oracle;
absent or empty content yields the degraded record. -/
def getRepoDetails (oracle : String → Option Html) (repoUrl : String) : RepoResult :=
  match oracle repoUrl with
  | none => ⟨repoUrl, "", []⟩
  | some [] => ⟨repoUrl, "", []⟩
  | some (node :: rest) => ⟨repoUrl, ownerOf (node :: rest), statsOf (node :: rest)⟩

/-! ### Fetch with retry (`GitHubCrawler._fetch_with_retry`) -/

/-- Outcome of one GET attempt, the input nondeterminism of the fetcher.
`retryAfter` models the rate-limit header: absent, present but unparseable,
or present with the parsed integer value; `connError` models the two
connection-level exception classes, `clientError` the remaining client or
timeout errors, `unexpected` the catch-all. -/
inductive AttemptEvent where
  | response (status : Nat) (retryAfter : Option (Option Int)) (body : String)
  | connError
  | clientError
  | unexpected
deriving Repr, DecidableEq

/-- Status codes that trigger a retry (`self.retry_status_codes`). -/
def retryStatusCodes : List Nat := [429, 500, 502, 503, 504]

/-- Observable result of a fetch: the returned content, the number of GET
attempts issued, the sleeps performed in order, and the proxy passed to each
GET in order. -/
structure FetchResult where
  content : Option String
  attempts : Nat
  sleeps : List ℚ
  gets : List (Option String)
deriving Repr, DecidableEq

/-- Python integer truncation toward zero of a float, the conversion applied
to the backoff delay when the rate-limit header is absent. -/
def pyTrunc (q : ℚ) : Int :=
  if 0 ≤ q then Int.ofNat (q.num.toNat / q.den)
  else -Int.ofNat ((-q.num).toNat / q.den)

/-- One loop of `_fetch_with_retry`.  `fuel` counts the remaining iterations
of the retry-budget loop (`max_retries + 1 - retry_count`); `delay` is the
current backoff delay; `att`, `sl`, `gs` accumulate attempts, sleeps and the
proxy of each GET.  Branches mirror the Python control flow: a 429 sleeps the
parsed rate-limit value (or the truncated delay when the header is absent)
and retries without doubling the delay, while an unparseable header raises a
`ValueError` that lands in the catch-all handler and returns no content; the
other retryable statuses and the transport errors back off with jitter and
double the delay, giving up when the budget is exhausted; a non-retryable
error status and any unexpected error return no content at once; exhausting
the loop (all attempts rate-limited) falls off the end, returning no content. -/
def fetchAux (events : Nat → AttemptEvent) (jitter : Nat → ℚ) (px : Option String) :
    Nat → ℚ → Nat → List ℚ → List (Option String) → FetchResult
  | 0, _, att, sl, gs => ⟨none, att, sl, gs⟩
  | fuel + 1, delay, att, sl, gs =>
    match events att with
    | .response status ra body =>
      if status ∈ retryStatusCodes then
        if status = 429 then
          match ra with
          | some (some n) =>
            fetchAux events jitter px fuel delay (att + 1) (sl ++ [(n : ℚ)]) (gs ++ [px])
          | none =>
            fetchAux events jitter px fuel delay (att + 1) (sl ++ [((pyTrunc delay : Int) : ℚ)])
              (gs ++ [px])
          | some none => ⟨none, att + 1, sl, gs ++ [px]⟩
        else
          if fuel = 0 then ⟨none, att + 1, sl, gs ++ [px]⟩
          else
            fetchAux events jitter px fuel (2 * delay) (att + 1)
              (sl ++ [delay + jitter att]) (gs ++ [px])
      else
        if 400 ≤ status then ⟨none, att + 1, sl, gs ++ [px]⟩
        else ⟨some body, att + 1, sl, gs ++ [px]⟩
    | .connError =>
      if fuel = 0 then ⟨none, att + 1, sl, gs ++ [px]⟩
      else
        fetchAux events jitter px fuel (2 * delay) (att + 1) (sl ++ [delay + jitter att])
          (gs ++ [px])
    | .clientError =>
      if fuel = 0 then ⟨none, att + 1, sl, gs ++ [px]⟩
      else
        fetchAux events jitter px fuel (2 * delay) (att + 1) (sl ++ [delay + jitter att])
          (gs ++ [px])
    | .unexpected => ⟨none, att + 1, sl, gs ++ [px]⟩

/-- Model of `_fetch_with_retry`: the loop started with a zero attempt
counter and the configured initial delay. -/
def fetchWithRetry (maxRetries : Nat) (retryDelay : ℚ) (px : Option String)
    (events : Nat → AttemptEvent) (jitter : Nat → ℚ) : FetchResult :=
  fetchAux events jitter px (maxRetries + 1) retryDelay 0 [] []

/-! ### Proxy selection (`GitHubCrawler.set_proxies`) -/

/-- Scheme normalization applied to the chosen proxy. -/
def normalizeProxy (p : String) : String :=
  if pyStartsWith p "http://" || pyStartsWith p "https://" then p else "http://" ++ p

/-- Model of `set_proxies`: the random choice is modeled by the index `pick`
of the chosen element; an empty pool clears the selection. -/
def setProxies (proxies : List String) (pick : Nat) : Option String :=
  match proxies with
  | [] => none
  | _ :: _ => some (normalizeProxy (proxies.getD pick ""))

/-! ### Search orchestration (`GitHubCrawler.search`) -/

/-- Result record of a search: repository details or a bare URL record. -/
inductive SearchItem where
  | repoItem (r : RepoResult)
  | urlItem (url : String)
deriving Repr, DecidableEq

/-- URL of a search item. -/
def SearchItem.itemUrl : SearchItem → String
  | .repoItem r => r.url
  | .urlItem u => u

/-- The three recognized categories. -/
def validSearchTypes : List String := ["Repositories", "Issues", "Wikis"]

/-- Search URL: keywords joined with plus signs as the query, the lower-cased
category as the type parameter. -/
def searchUrlOf (baseUrl : String) (keywords : List String) (searchType : String) : String :=
  buildUrl baseUrl "search"
    [("q", String.intercalate "+" keywords), ("type", pyLower searchType)]

/-- The inline Issues/Wikis branch of `search`: the same selector expression
as `_parse_search_results`, emitting bare URL records. -/
def searchInlineResults (baseUrl : String) (doc : Html) : List SearchItem :=
  (selectResultsListLinks doc).filterMap (fun n =>
    match getAttr (nodeAttrs n) "href" with
    | some h => if h = "" then none else some (SearchItem.urlItem (urljoin baseUrl h))
    | none => none)

/-- Model of `search`.  Returns the outcome (validation error or result list)
together with the list of URLs fetched, in dispatch order: the search page
first, then — for Repositories — one detail fetch per discovered link (the
gather join returns results in task order, modeled by mapping over the links). -/
def search (baseUrl : String) (oracle : String → Option Html) (keywords : List String)
    (searchType : String) : Except String (List SearchItem) × List String :=
  if searchType ∉ validSearchTypes then
    (Except.error "search_type must be one of: Repositories, Issues, Wikis", [])
  else
    match oracle (searchUrlOf baseUrl keywords searchType) with
    | none => (Except.ok [], [searchUrlOf baseUrl keywords searchType])
    | some [] => (Except.ok [], [searchUrlOf baseUrl keywords searchType])
    | some (node :: rest) =>
      if searchType = "Repositories" then
        match parseSearchResults baseUrl (node :: rest) with
        | [] => (Except.ok [], [searchUrlOf baseUrl keywords searchType])
        | u :: us =>
          (Except.ok ((u :: us).map (fun r => SearchItem.repoItem (getRepoDetails oracle r))),
            searchUrlOf baseUrl keywords searchType :: u :: us)
      else
        (Except.ok (searchInlineResults baseUrl (node :: rest)),
          [searchUrlOf baseUrl keywords searchType])

/-! ### Concrete pages, oracles and event streams used by the witnesses -/

/-- The default base URL of the crawler. -/
def ghBase : String := "https://github.com"

/-- Search-results page with two repository links. -/
def resultsDoc : Html :=
  [Node.elem "div" [("data-testid", "results-list")]
    [Node.elem "a" [("class", "prc-Link-Link"), ("href", "/u/r1")] [Node.text "R1"],
     Node.elem "a" [("class", "prc-Link-Link"), ("href", "/u/r2")] [Node.text "R2"]]]

/-- Oracle answering the python repository search with `resultsDoc` and
failing every detail fetch. -/
def searchOracle : String → Option Html := fun u =>
  if u = "https://github.com/search?q=python&type=repositories" then some resultsDoc else none

/-- Oracle answering the empty-keyword repository search with `resultsDoc`. -/
def emptyKwOracle : String → Option Html := fun u =>
  if u = "https://github.com/search?q=&type=repositories" then some resultsDoc else none

/-- Repository page with a valid, an invalid and another valid language pair. -/
def langDoc : Html :=
  [Node.elem "h2" [] [Node.text "Languages"],
   Node.elem "ul" []
    [Node.elem "li" [("class", "d-inline")]
       [Node.elem "span" [("class", "text-bold")] [Node.text "Python"],
        Node.elem "span" [] [Node.text "75.5%"]],
     Node.elem "li" [("class", "d-inline")]
       [Node.elem "span" [("class", "text-bold")] [Node.text "Bogus"],
        Node.elem "span" [] [Node.text "invalid%"]],
     Node.elem "li" [("class", "d-inline")]
       [Node.elem "span" [("class", "text-bold")] [Node.text "JavaScript"],
        Node.elem "span" [] [Node.text "24.5%"]]]]

/-- Rate-limited answer with an unparseable retry header, every attempt. -/
def ev429Unparseable : Nat → AttemptEvent := fun _ =>
  AttemptEvent.response 429 (some none) "x"

/-- Rate-limited first answer without a retry header, then success. -/
def ev429Absent : Nat → AttemptEvent := fun n =>
  if n = 0 then AttemptEvent.response 429 none "x" else AttemptEvent.response 200 none "ok"

/-- Rate-limited answer with a parsed retry value of two seconds. -/
def ev429Parsed : Nat → AttemptEvent := fun _ =>
  AttemptEvent.response 429 (some (some 2)) "x"

/-- Plain not-found answer, every attempt. -/
def ev404 : Nat → AttemptEvent := fun _ =>
  AttemptEvent.response 404 none "not found"

/-- Jitter stream drawing zero every time. -/
def zeroJitter : Nat → ℚ := fun _ => 0

/-! ## Claims -/

/-- C6: for every keywords list, calling `search` with a category outside the
three recognized values raises the validation error before any URL is built or
network request issued — the model returns the error outcome with an empty
fetch trace. -/
theorem search_invalid_type_rejected (baseUrl : String) (oracle : String → Option Html)
    (keywords : List String) (searchType : String) (h : searchType ∉ validSearchTypes) :
    search baseUrl oracle keywords searchType =
      (Except.error "search_type must be one of: Repositories, Issues, Wikis", []) := by
  unfold search
  rw [if_pos h]

/-- Witness for `search_invalid_type_rejected` at a concrete unknown category. -/
theorem search_invalid_type_rejected_witness :
    search ghBase searchOracle ["python"] "NotACategory" =
      (Except.error "search_type must be one of: Repositories, Issues, Wikis", []) :=
  search_invalid_type_rejected ghBase searchOracle ["python"] "NotACategory" (by decide)

/-- C1 counterexample: with empty keywords the crawler still issues the search
request (three fetches here: the search page and two detail pages) and can even
return a non-empty collection, refuting the claimed short-circuit. -/
theorem search_empty_keywords_cex :
    (search ghBase emptyKwOracle [] "Repositories").2 ≠ [] ∧
      (search ghBase emptyKwOracle [] "Repositories").1 ≠ Except.ok [] := by
  have h : search ghBase emptyKwOracle [] "Repositories" =
      (Except.ok
        [SearchItem.repoItem ⟨"https://github.com/u/r1", "", []⟩,
         SearchItem.repoItem ⟨"https://github.com/u/r2", "", []⟩],
       ["https://github.com/search?q=&type=repositories",
        "https://github.com/u/r1", "https://github.com/u/r2"]) := by rfl
  rw [h]
  refine ⟨by simp, by simp⟩

/-- C1 amended: empty keywords are not short-circuited — for every valid
category the search-page fetch is still issued (the fetch trace is non-empty),
and the collection is empty when that fetch yields no content. -/
theorem search_empty_keywords_amended (baseUrl : String) (oracle : String → Option Html)
    (searchType : String) (h : searchType ∈ validSearchTypes) :
    (search baseUrl oracle [] searchType).2 ≠ [] ∧
      (oracle (searchUrlOf baseUrl [] searchType) = none →
        (search baseUrl oracle [] searchType).1 = Except.ok []) := by
  have hval : ¬(searchType ∉ validSearchTypes) := fun hc => hc h
  constructor
  · cases ho : oracle (searchUrlOf baseUrl [] searchType) with
    | none => simp [search, hval, ho]
    | some doc =>
      cases doc with
      | nil => simp [search, hval, ho]
      | cons nd rest =>
        by_cases ht : searchType = "Repositories"
        · subst ht
          cases hp : parseSearchResults baseUrl (nd :: rest) with
          | nil => simp [search, validSearchTypes, ho, hp]
          | cons u us => simp [search, validSearchTypes, ho, hp]
        · simp [search, hval, ho, ht]
  · intro ho
    simp [search, hval, ho]

/-- Witness for `search_empty_keywords_amended` with an oracle that fails the
search fetch. -/
theorem search_empty_keywords_amended_witness :
    (search ghBase (fun _ => none) [] "Repositories").2 ≠ [] ∧
      (search ghBase (fun _ => none) [] "Repositories").1 = Except.ok [] := by
  have h := search_empty_keywords_amended ghBase (fun _ => none) "Repositories" (by decide)
  exact ⟨h.1, h.2 rfl⟩

/-- C2 counterexample: an unparseable rate-limit header on a 429 makes the
fetcher return failure at once — one GET, no sleep, no retry — instead of
sleeping the backoff delay and retrying; and with the header absent and a
non-integral delay of three halves the sleep is the truncation one, not the
delay itself. -/
theorem fetch_429_cex :
    fetchWithRetry 3 1 none ev429Unparseable zeroJitter =
        ⟨none, 1, [], [none]⟩ ∧
      (fetchWithRetry 3 (mkRat 3 2) none ev429Absent zeroJitter).sleeps = [1] := by
  exact ⟨rfl, rfl⟩

/-- C2 amended: on a 429 answer the fetcher, when the rate-limit header parses
as an integer, sleeps exactly that value, increments the attempt counter,
keeps the backoff delay unchanged and retries; when the header is absent it
retries the same way but sleeps the integer truncation of the current backoff
delay; when the header is present but unparseable it returns failure
immediately (the integer conversion raises and lands in the catch-all
handler). -/
theorem fetch_429_amended (events : Nat → AttemptEvent) (jitter : Nat → ℚ) (px : Option String)
    (fuel att : Nat) (delay : ℚ) (sl : List ℚ) (gs : List (Option String))
    (ra : Option (Option Int)) (body : String)
    (h : events att = AttemptEvent.response 429 ra body) :
    (∀ n : Int, ra = some (some n) →
        fetchAux events jitter px (fuel + 1) delay att sl gs =
          fetchAux events jitter px fuel delay (att + 1) (sl ++ [(n : ℚ)]) (gs ++ [px])) ∧
      (ra = none →
        fetchAux events jitter px (fuel + 1) delay att sl gs =
          fetchAux events jitter px fuel delay (att + 1)
            (sl ++ [((pyTrunc delay : Int) : ℚ)]) (gs ++ [px])) ∧
      (ra = some none →
        fetchAux events jitter px (fuel + 1) delay att sl gs =
          ⟨none, att + 1, sl, gs ++ [px]⟩) := by
  refine ⟨?_, ?_, ?_⟩
  · intro n hra
    subst hra
    simp [fetchAux, h, retryStatusCodes]
  · intro hra
    subst hra
    simp [fetchAux, h, retryStatusCodes]
  · intro hra
    subst hra
    simp [fetchAux, h, retryStatusCodes]

/-- Witness for `fetch_429_amended`: a parsed rate-limit value of two sleeps
two seconds and retries with the same delay. -/
theorem fetch_429_amended_witness :
    fetchAux ev429Parsed zeroJitter none 4 1 0 [] [] =
      fetchAux ev429Parsed zeroJitter none 3 1 1 [((2 : Int) : ℚ)] [none] := by
  simpa using
    (fetch_429_amended ev429Parsed zeroJitter none 3 0 1 [] [] (some (some 2)) "x" rfl).1 2 rfl

/-- C4: with a retry budget of three and an HTTP 500 answer on every attempt,
the fetcher issues exactly four GET attempts (initial plus three retries) and
returns absent content rather than raising. -/
theorem fetch_exhaustion_500 (ra : Nat → Option (Option Int)) (body : Nat → String)
    (jitter : Nat → ℚ) (px : Option String) (delay : ℚ) :
    (fetchWithRetry 3 delay px (fun n => AttemptEvent.response 500 (ra n) (body n))
        jitter).content = none ∧
      (fetchWithRetry 3 delay px (fun n => AttemptEvent.response 500 (ra n) (body n))
        jitter).attempts = 4 := by
  simp [fetchWithRetry, fetchAux, retryStatusCodes]

/-- C5: the fetcher never raises to its caller (it is a total function into
the result record); a non-retryable HTTP status — any 4xx other than 429 —
on the first attempt returns absent content immediately after a single GET
with no sleep and no retry, and so does any unexpected error. -/
theorem fetch_nonretryable_failfast (mr : Nat) (delay : ℚ) (px : Option String)
    (events : Nat → AttemptEvent) (jitter : Nat → ℚ)
    (h : events 0 = AttemptEvent.unexpected ∨
      ∃ status ra body, events 0 = AttemptEvent.response status ra body ∧
        400 ≤ status ∧ status < 500 ∧ status ≠ 429) :
    fetchWithRetry mr delay px events jitter = ⟨none, 1, [], [px]⟩ := by
  rcases h with h | ⟨status, ra, body, h, h4, h5, h9⟩
  · show fetchAux events jitter px (mr + 1) delay 0 [] [] = _
    simp [fetchAux, h]
  · have hmem : status ∉ retryStatusCodes := by
      simp only [retryStatusCodes, List.mem_cons, List.not_mem_nil, or_false]
      push_neg
      omega
    show fetchAux events jitter px (mr + 1) delay 0 [] [] = _
    simp [fetchAux, h, hmem, h4]

/-- Witness for `fetch_nonretryable_failfast`: a 404 answer fails after one
GET. -/
theorem fetch_nonretryable_failfast_witness :
    fetchWithRetry 3 1 none ev404 zeroJitter = ⟨none, 1, [], [none]⟩ :=
  fetch_nonretryable_failfast 3 1 none ev404 zeroJitter
    (Or.inr ⟨404, none, "not found", rfl, by decide, by decide, by decide⟩)

/-- C3: for non-empty keywords in the Repositories category, a successful
search-page fetch yields the collection obtained by mapping the detail
extraction over the extracted links — hence one result per link, the result at
index i being the detail record of link i, discovery order preserved by the
order-preserving gather join; a failed search fetch yields the empty
collection. -/
theorem search_repositories_order (baseUrl : String) (oracle : String → Option Html)
    (keywords : List String) (_hk : keywords ≠ []) :
    (∀ doc, oracle (searchUrlOf baseUrl keywords "Repositories") = some doc →
        (search baseUrl oracle keywords "Repositories").1 =
          Except.ok ((parseSearchResults baseUrl doc).map
            (fun u => SearchItem.repoItem (getRepoDetails oracle u))) ∧
        ((parseSearchResults baseUrl doc).map
            (fun u => SearchItem.repoItem (getRepoDetails oracle u))).length =
          (parseSearchResults baseUrl doc).length ∧
        ∀ i, (hi : i < ((parseSearchResults baseUrl doc).map
              (fun u => SearchItem.repoItem (getRepoDetails oracle u))).length) →
          (hj : i < (parseSearchResults baseUrl doc).length) →
          ((parseSearchResults baseUrl doc).map
              (fun u => SearchItem.repoItem (getRepoDetails oracle u))).get ⟨i, hi⟩ =
            SearchItem.repoItem
              (getRepoDetails oracle ((parseSearchResults baseUrl doc).get ⟨i, hj⟩))) ∧
      (oracle (searchUrlOf baseUrl keywords "Repositories") = none →
        (search baseUrl oracle keywords "Repositories").1 = Except.ok []) := by
  constructor
  · intro doc hdoc
    refine ⟨?_, by simp, ?_⟩
    · cases doc with
      | nil =>
        simp [search, validSearchTypes, hdoc, parseSearchResults, selectResultsListLinks,
          docOrder, preorderKids]
      | cons nd rest =>
        cases hp : parseSearchResults baseUrl (nd :: rest) with
        | nil => simp [search, validSearchTypes, hdoc, hp]
        | cons u us => simp [search, validSearchTypes, hdoc, hp]
    · intro i hi hj
      simp [List.get_eq_getElem, List.getElem_map]
  · intro hnone
    simp [search, validSearchTypes, hnone]

/-- Witness for `search_repositories_order` on a concrete two-link results
page whose detail fetches fail, yielding two degraded records in link order. -/
theorem search_repositories_order_witness :
    (search ghBase searchOracle ["python"] "Repositories").1 =
      Except.ok
        [SearchItem.repoItem ⟨"https://github.com/u/r1", "", []⟩,
         SearchItem.repoItem ⟨"https://github.com/u/r2", "", []⟩] := by
  have h := ((search_repositories_order ghBase searchOracle ["python"]
    (by decide)).1 resultsDoc (by rfl)).1
  rw [h]
  rfl

/-- A character list is a prefix of itself followed by anything. -/
theorem isPrefixOf_append_self (l m : List Char) : l.isPrefixOf (l ++ m) = true := by
  induction l with
  | nil => simp [List.isPrefixOf]
  | cons c t ih => simp [List.isPrefixOf, ih]

/-- Every proxy recorded by the fetch loop is the fixed session proxy. -/
theorem fetchAux_gets_const (events : Nat → AttemptEvent) (jitter : Nat → ℚ)
    (px : Option String) :
    ∀ (fuel : Nat) (delay : ℚ) (att : Nat) (sl : List ℚ) (gs : List (Option String)),
      (∀ g ∈ gs, g = px) →
        ∀ g ∈ (fetchAux events jitter px fuel delay att sl gs).gets, g = px := by
  intro fuel
  induction fuel with
  | zero => intro delay att sl gs hgs; exact hgs
  | succ f ih =>
    intro delay att sl gs hgs g hg
    have hext : ∀ g0 ∈ gs ++ [px], g0 = px := by
      intro g0 hg0
      rcases List.mem_append.mp hg0 with h0 | h0
      · exact hgs g0 h0
      · simpa using h0
    cases hev : events att with
    | response status ra body =>
      by_cases hs : status ∈ retryStatusCodes
      · by_cases h429 : status = 429
        · cases ra with
          | none =>
            simp only [fetchAux, hev, if_pos hs, if_pos h429] at hg
            exact ih _ _ _ _ hext g hg
          | some o =>
            cases o with
            | none =>
              simp only [fetchAux, hev, if_pos hs, if_pos h429] at hg
              exact hext g hg
            | some n =>
              simp only [fetchAux, hev, if_pos hs, if_pos h429] at hg
              exact ih _ _ _ _ hext g hg
        · by_cases hf : f = 0
          · simp only [fetchAux, hev, if_pos hs, if_neg h429, if_pos hf] at hg
            exact hext g hg
          · simp only [fetchAux, hev, if_pos hs, if_neg h429, if_neg hf] at hg
            exact ih _ _ _ _ hext g hg
      · by_cases h4 : 400 ≤ status
        · simp only [fetchAux, hev, if_neg hs, if_pos h4] at hg
          exact hext g hg
        · simp only [fetchAux, hev, if_neg hs, if_neg h4] at hg
          exact hext g hg
    | connError =>
      by_cases hf : f = 0
      · simp only [fetchAux, hev, if_pos hf] at hg
        exact hext g hg
      · simp only [fetchAux, hev, if_neg hf] at hg
        exact ih _ _ _ _ hext g hg
    | clientError =>
      by_cases hf : f = 0
      · simp only [fetchAux, hev, if_pos hf] at hg
        exact hext g hg
      · simp only [fetchAux, hev, if_neg hf] at hg
        exact ih _ _ _ _ hext g hg
    | unexpected =>
      simp only [fetchAux, hev] at hg
      exact hext g hg

/-- C7: after `set_proxies`, a non-empty pool yields a selected proxy that is
a pool member normalized to carry an http or https scheme; an empty pool
selects nothing, so requests go direct; and the selected proxy is passed
unchanged to every GET of the session (never rotated per request). -/
theorem proxy_selection_policy :
    (∀ (pool : List String) (pick : Nat), pick < pool.length →
        ∃ p ∈ pool, setProxies pool pick = some (normalizeProxy p) ∧
          (pyStartsWith (normalizeProxy p) "http://" = true ∨
            pyStartsWith (normalizeProxy p) "https://" = true)) ∧
      (∀ pick, setProxies [] pick = none) ∧
      (∀ (mr : Nat) (delay : ℚ) (px : Option String) (events : Nat → AttemptEvent)
          (jitter : Nat → ℚ),
        ∀ g ∈ (fetchWithRetry mr delay px events jitter).gets, g = px) := by
  have hsch : ∀ q : String, pyStartsWith (normalizeProxy q) "http://" = true ∨
      pyStartsWith (normalizeProxy q) "https://" = true := by
    intro q
    unfold normalizeProxy
    by_cases h1 : pyStartsWith q "http://" = true
    · rw [if_pos (by simp [h1])]
      exact Or.inl h1
    · by_cases h2 : pyStartsWith q "https://" = true
      · rw [if_pos (by simp [h2])]
        exact Or.inr h2
      · rw [if_neg (by simp [h1, h2])]
        left
        show ("http://".data.isPrefixOf ("http://" ++ q).data) = true
        have hd : ("http://" ++ q).data = "http://".data ++ q.data := by
          cases q
          rfl
        rw [hd]
        exact isPrefixOf_append_self _ _
  refine ⟨?_, fun _ => rfl, ?_⟩
  · intro pool pick hlt
    cases pool with
    | nil => exact absurd hlt (by simp)
    | cons a t =>
      refine ⟨(a :: t).getD pick "", ?_, rfl, hsch _⟩
      have hgd : (a :: t).getD pick "" = (a :: t).get ⟨pick, hlt⟩ := List.getD_eq_getElem _ _ hlt
      rw [hgd]
      exact List.get_mem _ _ _
  · intro mr delay px events jitter
    exact fetchAux_gets_const events jitter px (mr + 1) delay 0 [] [] (by simp)

/-- Witness for `proxy_selection_policy`: picking the second proxy of a
two-element pool, and a concrete fetch whose single GET carries it. -/
theorem proxy_selection_policy_witness :
    (∃ p ∈ ["127.0.0.1:8080", "127.0.0.1:8081"],
        setProxies ["127.0.0.1:8080", "127.0.0.1:8081"] 1 = some (normalizeProxy p) ∧
          (pyStartsWith (normalizeProxy p) "http://" = true ∨
            pyStartsWith (normalizeProxy p) "https://" = true)) ∧
      ∀ g ∈ (fetchWithRetry 0 1 (some "http://127.0.0.1:8081") ev404 zeroJitter).gets,
        g = some "http://127.0.0.1:8081" := by
  exact ⟨proxy_selection_policy.1 ["127.0.0.1:8080", "127.0.0.1:8081"] 1 (by decide),
    proxy_selection_policy.2.2 0 1 (some "http://127.0.0.1:8081") ev404 zeroJitter⟩

/-- Keys of a dict insertion: the previous keys plus the inserted one. -/
theorem dictInsert_keys (m : List (String × ℚ)) (k : String) (v : ℚ) (a : String) :
    a ∈ (dictInsert m k v).map Prod.fst ↔ a ∈ m.map Prod.fst ∨ a = k := by
  induction m with
  | nil => simp [dictInsert]
  | cons hd t ih =>
    obtain ⟨x, y⟩ := hd
    by_cases hx : x = k
    · subst hx
      simp [dictInsert]
      tauto
    · simp [dictInsert, hx, ih]
      tauto

/-- Membership in a dict insertion comes from the old dict or is the new pair. -/
theorem dictInsert_mem {m : List (String × ℚ)} {k a : String} {v b : ℚ}
    (h : (a, b) ∈ dictInsert m k v) : (a, b) ∈ m ∨ (a = k ∧ b = v) := by
  induction m with
  | nil =>
    simp [dictInsert] at h
    exact Or.inr h
  | cons hd t ih =>
    obtain ⟨x, y⟩ := hd
    by_cases hx : x = k
    · subst hx
      simp only [dictInsert, if_pos rfl] at h
      rcases List.mem_cons.mp h with h1 | h1
      · simp only [Prod.mk.injEq] at h1
        exact Or.inr h1
      · exact Or.inl (List.mem_cons_of_mem _ h1)
    · simp only [dictInsert, if_neg hx] at h
      rcases List.mem_cons.mp h with h1 | h1
      · exact Or.inl (h1 ▸ List.mem_cons_self _ _)
      · rcases ih h1 with h2 | h2
        · exact Or.inl (List.mem_cons_of_mem _ h2)
        · exact Or.inr h2

/-- The loop step leaves the dictionary unchanged when no pair is extracted. -/
theorem langStep_no_pair {doc : Html} {li : List Nat × Node}
    (hpair : langPairOfLi doc li = none) (acc : List (String × ℚ)) :
    langStep doc li acc = acc := by
  simp [langStep, hpair]

/-- The loop step leaves the dictionary unchanged when the percentage fails to
parse. -/
theorem langStep_parse_fail {doc : Html} {li : List Nat × Node} {n p : String}
    (hpair : langPairOfLi doc li = some (n, p)) (hfl : pyFloat p = none)
    (acc : List (String × ℚ)) : langStep doc li acc = acc := by
  simp [langStep, hpair, hfl]

/-- The loop step inserts the parsed pair. -/
theorem langStep_parse_ok {doc : Html} {li : List Nat × Node} {n p : String} {v : ℚ}
    (hpair : langPairOfLi doc li = some (n, p)) (hfl : pyFloat p = some v)
    (acc : List (String × ℚ)) : langStep doc li acc = dictInsert acc n v := by
  simp [langStep, hpair, hfl]

/-- Values accumulated by the language loop come from the initial accumulator
or from a list item whose percentage parsed. -/
theorem langLoop_mem (doc : Html) (lis : List (List Nat × Node)) :
    ∀ (acc : List (String × ℚ)) (n : String) (v : ℚ), (n, v) ∈ langLoop doc lis acc →
      (n, v) ∈ acc ∨
        ∃ li ∈ lis, ∃ p, langPairOfLi doc li = some (n, p) ∧ pyFloat p = some v := by
  induction lis with
  | nil =>
    intro acc n v h
    exact Or.inl (by simpa [langLoop] using h)
  | cons li t ih =>
    intro acc n v h
    simp only [langLoop] at h
    rcases ih _ n v h with h1 | ⟨li', hli', p, hp, hf⟩
    · cases hpair : langPairOfLi doc li with
      | none =>
        rw [langStep_no_pair hpair] at h1
        exact Or.inl h1
      | some np =>
        obtain ⟨nm, pt⟩ := np
        cases hfl : pyFloat pt with
        | none =>
          rw [langStep_parse_fail hpair hfl] at h1
          exact Or.inl h1
        | some v' =>
          rw [langStep_parse_ok hpair hfl] at h1
          rcases dictInsert_mem h1 with h2 | h2
          · exact Or.inl h2
          · refine Or.inr ⟨li, List.mem_cons_self _ _, pt, ?_, ?_⟩
            · rw [h2.1]
              exact hpair
            · rw [h2.2]
              exact hfl
    · exact Or.inr ⟨li', List.mem_cons_of_mem _ hli', p, hp, hf⟩

/-- Keys of the language loop are monotone in the accumulator. -/
theorem langLoop_keys_mono (doc : Html) (lis : List (List Nat × Node)) :
    ∀ (acc : List (String × ℚ)) (a : String), a ∈ acc.map Prod.fst →
      a ∈ (langLoop doc lis acc).map Prod.fst := by
  induction lis with
  | nil =>
    intro acc a h
    simpa [langLoop] using h
  | cons li t ih =>
    intro acc a h
    simp only [langLoop]
    cases hpair : langPairOfLi doc li with
    | none =>
      rw [langStep_no_pair hpair]
      exact ih _ _ h
    | some np =>
      obtain ⟨nm, pt⟩ := np
      cases hfl : pyFloat pt with
      | none =>
        rw [langStep_parse_fail hpair hfl]
        exact ih _ _ h
      | some v' =>
        rw [langStep_parse_ok hpair hfl]
        exact ih _ _ ((dictInsert_keys acc nm v' a).mpr (Or.inl h))

/-- A list item whose pair parses contributes its language name to the keys. -/
theorem langLoop_captures (doc : Html) (lis : List (List Nat × Node)) :
    ∀ (acc : List (String × ℚ)), ∀ li ∈ lis, ∀ (n p : String) (v : ℚ),
      langPairOfLi doc li = some (n, p) → pyFloat p = some v →
        n ∈ (langLoop doc lis acc).map Prod.fst := by
  induction lis with
  | nil =>
    intro acc li h
    exact absurd h (List.not_mem_nil _)
  | cons li0 t ih =>
    intro acc li hli n p v hp hf
    simp only [langLoop]
    rcases List.mem_cons.mp hli with rfl | hli'
    · rw [langStep_parse_ok hp hf]
      exact langLoop_keys_mono doc t _ n ((dictInsert_keys acc n v n).mpr (Or.inr rfl))
    · exact ih _ li hli' n p v hp hf

/-- C8: in the language-statistics loop, every name/percentage pair whose
percentage text does not parse is silently skipped — a language appears among
the keys only on the strength of a pair that parsed, and a language all of
whose pairs fail to parse is absent — while every pair that parses is still
captured. -/
theorem langstats_invalid_skipped (doc : Html) (lis : List (List Nat × Node)) :
    (∀ (n : String) (v : ℚ), (n, v) ∈ langLoop doc lis [] →
        ∃ li ∈ lis, ∃ p, langPairOfLi doc li = some (n, p) ∧ pyFloat p = some v) ∧
      (∀ n : String,
        (∀ li ∈ lis, ∀ p, langPairOfLi doc li = some (n, p) → pyFloat p = none) →
          n ∉ (langLoop doc lis []).map Prod.fst) ∧
      (∀ li ∈ lis, ∀ (n p : String) (v : ℚ), langPairOfLi doc li = some (n, p) →
        pyFloat p = some v → n ∈ (langLoop doc lis []).map Prod.fst) := by
  refine ⟨?_, ?_, ?_⟩
  · intro n v h
    rcases langLoop_mem doc lis [] n v h with h1 | h2
    · exact absurd h1 (List.not_mem_nil _)
    · exact h2
  · intro n hall hmem
    rcases List.mem_map.mp hmem with ⟨pr, hpr, hfst⟩
    obtain ⟨a, b⟩ := pr
    rcases langLoop_mem doc lis [] a b hpr with h1 | ⟨li, hli, p, hp, hf⟩
    · exact absurd h1 (List.not_mem_nil _)
    · have ha : a = n := hfst
      have : pyFloat p = none := hall li hli p (by rw [← ha]; exact hp)
      rw [this] at hf
      exact Option.noConfusion hf
  · intro li hli n p v hp hf
    exact langLoop_captures doc lis [] li hli n p v hp hf

/-- Witness for `langstats_invalid_skipped` on the concrete Languages list:
the valid JavaScript pair after the invalid one is still captured, and the
whole loop yields exactly the two valid pairs. -/
theorem langstats_invalid_skipped_witness :
    "JavaScript" ∈ (langLoop langDoc (tier1Lis langDoc) []).map Prod.fst ∧
      langLoop langDoc (tier1Lis langDoc) [] =
        [("Python", mkRat 151 2), ("JavaScript", mkRat 49 2)] := by
  constructor
  · exact (langstats_invalid_skipped langDoc (tier1Lis langDoc)).2.2
      ([1, 2],
        Node.elem "li" [("class", "d-inline")]
          [Node.elem "span" [("class", "text-bold")] [Node.text "JavaScript"],
           Node.elem "span" [] [Node.text "24.5%"]])
      (by decide) "JavaScript" "24.5" (mkRat 49 2) (by decide) (by decide)
  · rfl

/-- C9: absent markup, empty markup, and markup in which neither the owner
selectors, the Languages heading, nor the Tier-2 language items match, all
yield the degraded record with empty owner and empty stats, without raising. -/
theorem repo_details_degraded (oracle : String → Option Html) (url : String)
    (h : oracle url = none ∨ oracle url = some [] ∨
      ∃ doc, oracle url = some doc ∧ ownerElement doc = none ∧ findLangBox doc = none ∧
        tier2Lis doc = []) :
    getRepoDetails oracle url = ⟨url, "", []⟩ := by
  rcases h with h | h | ⟨doc, hdoc, howner, hbox, ht2⟩
  · simp [getRepoDetails, h]
  · simp [getRepoDetails, h]
  · cases doc with
    | nil => simp [getRepoDetails, hdoc]
    | cons nd rest =>
      have ht1 : tier1Lis (nd :: rest) = [] := by simp [tier1Lis, hbox]
      have hstats : statsOf (nd :: rest) = [] := by simp [statsOf, ht1, ht2, langLoop]
      have hown : ownerOf (nd :: rest) = "" := by simp [ownerOf, howner]
      simp [getRepoDetails, hdoc, hstats, hown]

/-- Witness for `repo_details_degraded`: an unreachable page. -/
theorem repo_details_degraded_witness :
    getRepoDetails (fun _ => none) "https://github.com/u/r1" =
      ⟨"https://github.com/u/r1", "", []⟩ :=
  repo_details_degraded (fun _ => none) "https://github.com/u/r1" (Or.inl rfl)

/-- C10: the inline Issues/Wikis parsing branch of `search` produces exactly
the URL sequence of `_parse_search_results` on the same markup — both use the
same container selector, anchor selector, and base-origin resolution. -/
theorem inline_branch_matches_parse (baseUrl : String) (doc : Html) :
    searchInlineResults baseUrl doc =
      (parseSearchResults baseUrl doc).map SearchItem.urlItem := by
  unfold searchInlineResults parseSearchResults
  generalize selectResultsListLinks doc = l
  induction l with
  | nil => rfl
  | cons n t ih =>
    simp only [List.filterMap_cons]
    cases hA : getAttr (nodeAttrs n) "href" with
    | none => simpa using ih
    | some h =>
      by_cases hh : h = ""
      · simpa [hh] using ih
      · simp [hh, ih]

end GitPars
